import Mathlib

/-!
Verification of the iterative RAG agent pipeline
(src/insurance_RAG/backend/docs/rishi_rag.py) and the question-answering
HTTP endpoint (src/insurance_RAG/backend/app.py).

The Python code is shallowly embedded: each pipeline node becomes a pure
Lean function on an explicit state record; the partial state
updates of LangGraph become record updates; Python exceptions become an Except monad;
Python floats become exact rationals; JSON objects parsed from oracle
responses become records of Option-typed fields (a missing field is none,
a whole-response parse failure is a none response).
-/

/-! ## Documents and deduplication (rishi_rag.py lines 113-134) -/

/-- A retrieved passage. The Python code is a langchain Document whose
metadata is accessed only at the keys "source", "file_path" and "page";
those accesses are flattened into fields, each Option-typed because
metadata.get returns None for a missing key. -/
structure Document where
  page_content : Option String
  source : Option String
  file_path : Option String
  page : Option Int
  deriving DecidableEq

/-- The deduplication key of a passage: the pair
(metadata.get("source"), metadata.get("page")), as in line 130. -/
def dedupKey (d : Document) : Option String × Option Int :=
  (d.source, d.page)

/-- Worker for dedupeDocs, making the mutable seen-set of the Python loop
an explicit argument (membership is all the code uses the set for). -/
def dedupeAux (seen : List (Option String × Option Int)) :
    List Document → List Document
  | [] => []
  | d :: ds =>
    if dedupKey d ∈ seen then dedupeAux seen ds
    else d :: dedupeAux (dedupKey d :: seen) ds

/-- Embedding of the function named with a leading underscore and the word
dedupe in rishi_rag.py lines 125-134: remove duplicate documents based on
(source, page) metadata, keeping the first occurrence. -/
def dedupeDocs (docs : List Document) : List Document :=
  dedupeAux [] docs

/-- Embedding of the evidence-accumulator merge performed at
rishi_rag.py line 401: the previous accumulator concatenated with the
fused batch, re-deduplicated. -/
def mergeEvidence (existing fused : List Document) : List Document :=
  dedupeDocs (existing ++ fused)

/-- Two passages clash when they carry the same deduplication key. -/
abbrev keyDistinct (a b : Document) : Prop := dedupKey a ≠ dedupKey b

/-! ## Small Python-semantics helpers -/

/-- Python list slicing from the end, as in hints[-50:] and similar: the
last n elements (all of them when the list is shorter). -/
def takeLast {α : Type} (n : Nat) (l : List α) : List α :=
  l.drop (l.length - n)

/-- Python float arithmetic is embedded as exact rational arithmetic. The
following operations are the textbook rational formulas, stated through
mkRat so that they evaluate inside the kernel; each is proved equal to the
corresponding Mathlib operation (theorems ratMul_eq, ratAdd_eq, ratSub_eq,
ratDiv_eq). -/
def ratMul (a b : Rat) : Rat := mkRat (a.num * b.num) (a.den * b.den)

/-- Exact rational addition in kernel-reducible form. -/
def ratAdd (a b : Rat) : Rat :=
  mkRat (a.num * b.den + b.num * a.den) (a.den * b.den)

/-- Exact rational subtraction in kernel-reducible form. -/
def ratSub (a b : Rat) : Rat := ratAdd a (Rat.neg b)

/-- Exact rational inverse in kernel-reducible form. -/
def ratInv (b : Rat) : Rat := Rat.divInt b.den b.num

/-- Exact rational division in kernel-reducible form. -/
def ratDiv (a b : Rat) : Rat := ratMul a (ratInv b)

/-- Python int() applied to a float: truncation toward zero. -/
def pyInt (q : Rat) : Int :=
  if 0 ≤ q then ⌊q⌋ else -⌊-q⌋

/-- Python str.lower, character by character. -/
def pyLower (s : String) : String := String.mk (s.data.map Char.toLower)

/-- Python str.strip: leading and trailing whitespace removed. -/
def pyStrip (s : String) : String :=
  String.mk (((s.data.dropWhile Char.isWhitespace).reverse.dropWhile
    Char.isWhitespace).reverse)

/-- The first line of a string: splitlines()[0] for nonempty input. -/
def pyFirstLine (s : String) : String :=
  String.mk (s.data.takeWhile (fun c => !(c = '\n')))

/-- Python string slicing s[:n], by characters. -/
def pyTakeChars (n : Nat) (s : String) : String := String.mk (s.data.take n)

/-- Python x or y for an optional string x: y when x is None or empty
(falsy), x otherwise. -/
def pyOrStr (a : Option String) (b : String) : String :=
  match a with
  | none => b
  | some s => if s = "" then b else s

/-- Python truthiness of an optional string: false for None and "". -/
def pyTruthyStr (o : Option String) : Bool :=
  match o with
  | none => false
  | some s => !s.isEmpty

/-! ## Parsed oracle responses

The _safe_json_parse utility (rishi_rag.py lines 137-150) returns either
the parsed JSON object or, on any parse failure, the caller-supplied
default object. A response is embedded as Option P where P is a record of
the fields the caller reads; none is a whole-response parse failure, and a
field missing from a successfully parsed object is a none field. -/

/-- One parsed sub-question object from the planning response. -/
structure SubQ where
  query : Option String
  priority : Option Rat
  aspect : Option String
  strategy : Option String
  deriving DecidableEq

/-- Parsed planning response (rishi_rag.py lines 333-336). -/
structure ParsedPlan where
  sub_questions : Option (List SubQ)
  deriving DecidableEq

/-- Parsed question-analysis response (rishi_rag.py lines 276-283). -/
structure ParsedAnalysis where
  complexity_score : Option Rat
  question_type : Option String
  estimated_hops : Option Rat
  required_evidence_types : Option (List String)
  key_aspects : Option (List String)
  deriving DecidableEq

/-- Parsed context-assessment response (rishi_rag.py lines 451-460). -/
structure ParsedAssessment where
  quality_score : Option Rat
  coverage_score : Option Rat
  evidence_strength : Option Rat
  information_gaps : Option (List String)
  contradictions : Option (List String)
  sufficiency_assessment : Option String
  key_findings : Option (List String)
  deriving DecidableEq

/-- Parsed decision response (rishi_rag.py lines 515-522); only the fields
the code reads are modelled. -/
structure ParsedDecision where
  decision : Option String
  confidence : Option Rat
  stop_reasons : Option (List String)
  deriving DecidableEq

/-- Parsed verification response (rishi_rag.py lines 607-617); only the
overall_grounding field is ever read. -/
structure ParsedVerification where
  overall_grounding : Option String
  deriving DecidableEq

/-- Default analysis object (rishi_rag.py lines 276-283). -/
def defaultAnalysis : ParsedAnalysis :=
  { complexity_score := some 5
    question_type := some "analytical"
    estimated_hops := some 4
    required_evidence_types := some ["documents"]
    key_aspects := some ["general"] }

/-- Default planning object (rishi_rag.py lines 333-336): one sub-question
equal to the original question. -/
def defaultPlan (question : String) : ParsedPlan :=
  { sub_questions := some
      [{ query := some question, priority := some 1,
         aspect := some "general", strategy := some "semantic" }] }

/-- Default assessment object (rishi_rag.py lines 451-460). -/
def defaultAssessment : ParsedAssessment :=
  { quality_score := some (mkRat 5 10)
    coverage_score := some (mkRat 5 10)
    evidence_strength := some (mkRat 5 10)
    information_gaps := some ["Assessment failed"]
    contradictions := some []
    sufficiency_assessment := some "partial"
    key_findings := some [] }

/-- Default decision object (rishi_rag.py lines 515-522). -/
def defaultDecision : ParsedDecision :=
  { decision := some "continue", confidence := some (mkRat 5 10),
    stop_reasons := some [] }

/-- Default verification object (rishi_rag.py lines 607-617). -/
def defaultVerification : ParsedVerification :=
  { overall_grounding := some "fail" }

/-! ## Errors and state -/

/-- Python exceptions that can escape a pipeline node. fuelExhausted is a
modelling artifact of the executable loop below: it is returned only when
the fuel bound of the loop is exceeded and is proved unreachable for runGraph
(theorem runGraph_ne_fuelExhausted). -/
inductive PyErr where
  | keyError (key : String)
  | zeroDivisionError
  | fuelExhausted
  deriving DecidableEq

/-- Decidable equality of node results, used to evaluate concrete runs. -/
instance {e a : Type} [DecidableEq e] [DecidableEq a] :
    DecidableEq (Except e a) := fun x y =>
  match x, y with
  | Except.ok v, Except.ok w =>
    if h : v = w then Decidable.isTrue (h ▸ rfl)
    else Decidable.isFalse (fun hc => h (Except.ok.inj hc))
  | Except.error v, Except.error w =>
    if h : v = w then Decidable.isTrue (h ▸ rfl)
    else Decidable.isFalse (fun hc => h (Except.error.inj hc))
  | Except.ok _, Except.error _ => Decidable.isFalse (fun hc => Except.noConfusion hc)
  | Except.error _, Except.ok _ => Decidable.isFalse (fun hc => Except.noConfusion hc)

/-- The decision-factors dict built at rishi_rag.py lines 538-543. The
third field embeds the dict entry whose key is iteration underscore ratio
in the source. -/
structure DecisionFactors where
  quality_score : Rat
  coverage_score : Rat
  iteration_share : Rat
  complexity_factor : Rat
  deriving DecidableEq

/-- The LangGraph state schema EnhancedAgentState (rishi_rag.py lines
56-106). The TypedDict is declared total=False, so every key except the
initial question may be absent: absent is none, and every read mirrors the
state.get(key, default) of the source with Option.getD. -/
structure EnhancedAgentState where
  question : String
  question_complexity : Option Rat := none
  question_type : Option String := none
  estimated_hops : Option Rat := none
  required_evidence_types : Option (List String) := none
  key_aspects : Option (List String) := none
  sub_questions : Option (List SubQ) := none
  current_query_batch : Option (List String) := none
  retrieval_strategies : Option (List String) := none
  parallel_results : Option (List (String × List Document)) := none
  fused_results : Option (List Document) := none
  context_quality_score : Option Rat := none
  coverage_score : Option Rat := none
  evidence_strength : Option Rat := none
  detected_contradictions : Option (List String) := none
  information_gaps : Option (List String) := none
  sufficiency_assessment : Option String := none
  key_findings : Option (List String) := none
  decision_factors : Option DecisionFactors := none
  continue_probability : Option Rat := none
  stop_reasons : Option (List String) := none
  recent_quality_improvements : Option (List Rat) := none
  answer_confidence : Option Rat := none
  iteration : Option Nat := none
  max_dynamic_iters : Option Nat := none
  stop : Option Bool := none
  evidence_docs : Option (List Document) := none
  last_batch : Option (List Document) := none
  evidence_hints : Option (List String) := none
  gaps : Option (List String) := none
  final_answer : Option String := none
  grounded_ok : Option Bool := none
  sub_question : Option String := none
  deriving DecidableEq

/-- The initial LangGraph state passed to invoke (rishi_rag.py lines
633-635): only the question key is present. -/
def initState (question : String) : EnhancedAgentState :=
  { question := question }

/-- Pipeline configuration from the constructor (rishi_rag.py lines
160, 227-229): default_max_iters is the max_iters argument and min_iters
is already clamped below by zero (the source applies max(0, min_iters)),
which the Nat type encodes. -/
structure Config where
  default_max_iters : Nat
  min_iters : Nat
  deriving DecidableEq

/-- The external oracle and evidence-store responses a run can observe,
determinised as functions: the planning/assessment/decision responses may
differ per loop iteration (indexed by the iteration counter of the state when
the node runs), retrieval is a function of the query, and synthesis is a
function of the question and the formatted context block. -/
structure Oracle where
  analysis : Option ParsedAnalysis
  plan : Nat → Option ParsedPlan
  semantic : String → Except String (List Document)
  similarity : String → Except String (List Document)
  assess : Nat → Option ParsedAssessment
  decision : Nat → Option ParsedDecision
  synth : String → String → String
  verify : Option ParsedVerification

/-! ## Formatting helpers (rishi_rag.py lines 113-122, 404-409) -/

/-- Embedding of the numbered context formatter (rishi_rag.py lines
113-122). -/
def formatDocs (docs : List Document) : String :=
  String.intercalate "\n"
    (docs.enum.map (fun p =>
      let n := p.1 + 1
      let src := pyOrStr p.2.source (pyOrStr p.2.file_path "unknown")
      let page := (p.2.page.map toString).getD "?"
      let body := p.2.page_content.getD ""
      s!"[S{n}] ({src} p.{page})\n{body}\n"))

/-- One evidence hint line for a newly fused document (rishi_rag.py lines
404-409). -/
def hintLine (d : Document) : String :=
  let src := pyOrStr d.source (pyOrStr d.file_path "unknown")
  let page := (d.page.map toString).getD "?"
  let title :=
    if pyTruthyStr d.page_content then
      pyTakeChars 120 (pyFirstLine (d.page_content.getD ""))
    else "No content"
  s!"{src} p.{page}: {title}"

/-! ## Pipeline nodes -/

/-- Node analyze_question (rishi_rag.py lines 268-308): derives the
question profile and the dynamic iteration budget, and resets all per-run
accumulators. The budget (line 288) is
min(default_max_iters, max(2, int(complexity * 0.8 + estimated_hops * 0.5))). -/
def analyzeQuestion (cfg : Config) (resp : Option ParsedAnalysis)
    (s : EnhancedAgentState) : EnhancedAgentState :=
  let analysis := resp.getD defaultAnalysis
  let complexity := analysis.complexity_score.getD 5
  let estimated_hops := analysis.estimated_hops.getD 4
  let max_dynamic : Nat :=
    (min (cfg.default_max_iters : Int)
      (max 2 (pyInt (ratAdd (ratMul complexity (mkRat 8 10))
        (ratMul estimated_hops (mkRat 5 10)))))).toNat
  { s with
    question_complexity := some complexity
    question_type := some (analysis.question_type.getD "analytical")
    estimated_hops := some estimated_hops
    required_evidence_types :=
      some (analysis.required_evidence_types.getD ["documents"])
    key_aspects := some (analysis.key_aspects.getD ["general"])
    max_dynamic_iters := some max_dynamic
    iteration := some 0
    evidence_docs := some []
    evidence_hints := some []
    gaps := some []
    recent_quality_improvements := some []
    context_quality_score := some 0
    coverage_score := some 0
    evidence_strength := some 0
    information_gaps := some []
    detected_contradictions := some []
    key_findings := some [] }

/-- One step of the stable priority sort: a is placed before the first
element whose priority key does not exceed its own, so an earlier element
precedes later elements with an equal key. -/
def insertByPriority (a : SubQ) : List SubQ → List SubQ
  | [] => [a]
  | b :: l =>
    if (b.priority.getD (mkRat 5 10)) ≤ (a.priority.getD (mkRat 5 10)) then
      a :: b :: l
    else b :: insertByPriority a l

/-- Stable sort of the parsed sub-questions by priority descending (the
Python list.sort with a priority key, reverse=True: stable on ties); a
stable descending sort is extensionally unique, so this equals the
Timsort call in the source. -/
def sortByPriorityDesc : List SubQ → List SubQ
  | [] => []
  | a :: l => insertByPriority a (sortByPriorityDesc l)

/-- The list comprehension building the current batch (rishi_rag.py line
342): the query field of each entry in order, raising KeyError at the
first entry that lacks it. -/
def extractQueries : List SubQ → Except PyErr (List String)
  | [] => Except.ok []
  | sq :: l =>
    match sq.query with
    | none => Except.error (PyErr.keyError "query")
    | some q =>
      match extractQueries l with
      | Except.error e => Except.error e
      | Except.ok qs => Except.ok (q :: qs)

/-- Node enhanced_plan (rishi_rag.py lines 310-351): sorts the parsed
sub-questions by priority descending, then extracts the query of each of
the top three via extractQueries. -/
def enhancedPlan (resp : Option ParsedPlan) (s : EnhancedAgentState) :
    Except PyErr EnhancedAgentState :=
  let question := s.question
  let planning_result := resp.getD (defaultPlan question)
  let sub_questions := planning_result.sub_questions.getD []
  let sorted := sortByPriorityDesc sub_questions
  match extractQueries (sorted.take 3) with
  | Except.error e => Except.error e
  | Except.ok current_batch =>
    Except.ok { s with
      sub_questions := some sorted
      current_query_batch := some current_batch
      sub_question := some (current_batch.headD question) }

/-- Per-query retrieval with a strategy (rishi_rag.py lines 357-370): the
hybrid strategy unions and deduplicates both modes; any retrieval error is
caught and treated as zero results. -/
def retrieveWithStrategy (semantic similarity : String → Except String (List Document))
    (query strategy : String) : List Document :=
  let result : Except String (List Document) :=
    if strategy = "semantic" then semantic query
    else if strategy = "similarity" then similarity query
    else do
      let semantic_docs ← semantic query
      let similarity_docs ← similarity query
      pure (dedupeDocs (semantic_docs ++ similarity_docs))
  match result with
  | Except.ok docs => docs
  | Except.error _ => []

/-- Strategy lookup for a query (rishi_rag.py lines 377-383): the first
sub-question whose query field equals the query supplies the strategy,
defaulting to semantic (an absent or empty sub_questions list also yields
semantic, matching the Python truthiness guard). -/
def strategyFor (s : EnhancedAgentState) (query : String) : String :=
  match (s.sub_questions.getD []).find?
      (fun sq => decide (sq.query = some query)) with
  | some sq => sq.strategy.getD "semantic"
  | none => "semantic"

/-- The per-query retrieval results of one round (rishi_rag.py lines
372-394), embedded as an association list in insertion order (the source
stores a dict keyed by query and strategy). -/
def parallelResultsOf (semantic similarity : String → Except String (List Document))
    (s : EnhancedAgentState) : List (String × List Document) :=
  let queries := s.current_query_batch.getD [s.sub_question.getD s.question]
  queries.map (fun query =>
    let strategy := strategyFor s query
    (query ++ "_" ++ strategy,
     retrieveWithStrategy semantic similarity query strategy))

/-- The fused batch of one retrieval round (rishi_rag.py lines 394-397):
all retrieved documents across the batch, deduplicated. -/
def fusedBatch (semantic similarity : String → Except String (List Document))
    (s : EnhancedAgentState) : List Document :=
  dedupeDocs (((parallelResultsOf semantic similarity s).map Prod.snd).flatten)

/-- Node parallel_retrieve (rishi_rag.py lines 353-420): retrieves every
query of the current batch, fuses and deduplicates the results, merges
them into the evidence accumulator and extends the rolling hint window. -/
def parallelRetrieve (semantic similarity : String → Except String (List Document))
    (s : EnhancedAgentState) : EnhancedAgentState :=
  let parallel_results := parallelResultsOf semantic similarity s
  let fused_docs := fusedBatch semantic similarity s
  let existing_evidence := s.evidence_docs.getD []
  let updated_evidence := mergeEvidence existing_evidence fused_docs
  let new_hints := fused_docs.map hintLine
  let updated_hints := takeLast 50 ((s.evidence_hints.getD []) ++ new_hints)
  { s with
    parallel_results := some parallel_results
    fused_results := some fused_docs
    last_batch := some fused_docs
    evidence_docs := some updated_evidence
    evidence_hints := some updated_hints }

/-- Node advanced_assess (rishi_rag.py lines 422-481): an empty
accumulator short-circuits to fixed zero scores without an oracle call;
otherwise the parsed (or defaulted) assessment is recorded and the
quality-improvement history extended, bounded to its last three entries. -/
def advancedAssess (resp : Option ParsedAssessment) (s : EnhancedAgentState) :
    EnhancedAgentState :=
  let evidence_docs := s.evidence_docs.getD []
  if evidence_docs.isEmpty then
    { s with
      context_quality_score := some 0
      coverage_score := some 0
      evidence_strength := some 0
      information_gaps := some ["No relevant documents found"]
      detected_contradictions := some []
      sufficiency_assessment := some "insufficient"
      key_findings := some []
      gaps := some ["No relevant documents found"] }
  else
    let assessment := resp.getD defaultAssessment
    let previous_quality := s.context_quality_score.getD 0
    let current_quality := assessment.quality_score.getD (mkRat 5 10)
    let quality_improvement := ratSub current_quality previous_quality
    let recent_improvements :=
      takeLast 3 ((s.recent_quality_improvements.getD []) ++ [quality_improvement])
    { s with
      context_quality_score := some current_quality
      coverage_score := some (assessment.coverage_score.getD (mkRat 5 10))
      evidence_strength := some (assessment.evidence_strength.getD (mkRat 5 10))
      information_gaps := some (assessment.information_gaps.getD [])
      detected_contradictions := some (assessment.contradictions.getD [])
      sufficiency_assessment :=
        some (assessment.sufficiency_assessment.getD "partial")
      key_findings := some (assessment.key_findings.getD [])
      recent_quality_improvements := some recent_improvements
      gaps := some (assessment.information_gaps.getD []) }

/-- Node intelligent_decide (rishi_rag.py lines 483-546), the state
machine of the loop. In source order: the raw oracle decision is read; when
iteration + 1 reaches the budget the stop verdict is forced true and a
reason is appended through a bare subscript (KeyError when the parsed
object has no stop_reasons field); when iteration + 1 is below min_iters
the verdict is forced false; finally the return dict is built, whose
iteration-ratio entry divides by max_iters (ZeroDivisionError when the
budget is zero). -/
def intelligentDecide (cfg : Config) (resp : Option ParsedDecision)
    (s : EnhancedAgentState) : Except PyErr EnhancedAgentState :=
  let iteration := s.iteration.getD 0
  let max_iters := s.max_dynamic_iters.getD cfg.default_max_iters
  let complexity := s.question_complexity.getD 5
  let quality := s.context_quality_score.getD 0
  let coverage := s.coverage_score.getD 0
  let decision_result := resp.getD defaultDecision
  let should_stop0 : Bool :=
    decide (pyLower (decision_result.decision.getD "continue") = "stop")
  let checked : Except PyErr (Bool × ParsedDecision) :=
    if max_iters ≤ iteration + 1 then
      match decision_result.stop_reasons with
      | none => Except.error (PyErr.keyError "stop_reasons")
      | some reasons =>
        Except.ok (true,
          { decision_result with
            stop_reasons := some (reasons ++ ["Reached maximum iterations"]) })
    else Except.ok (should_stop0, decision_result)
  match checked with
  | Except.error e => Except.error e
  | Except.ok (stop1, dr) =>
    let should_stop := if iteration + 1 < cfg.min_iters then false else stop1
    if max_iters = 0 then Except.error PyErr.zeroDivisionError
    else
      Except.ok { s with
        stop := some should_stop
        iteration := some (iteration + 1)
        decision_factors := some
          { quality_score := quality
            coverage_score := coverage
            iteration_share := ratDiv ((iteration + 1 : Nat) : Rat) (max_iters : Rat)
            complexity_factor := ratDiv complexity 10 }
        continue_probability := some (dr.confidence.getD (mkRat 5 10))
        stop_reasons := some (dr.stop_reasons.getD []) }

/-- The fixed no-evidence answer of the synthesis node (rishi_rag.py line
555). -/
def noEvidenceAnswer : String :=
  "I couldn\x27t find any relevant evidence in the knowledge base for this query."

/-- Node enhanced_synthesis (rishi_rag.py lines 548-581). The second
component of the result counts the oracle calls the node performs (its
only effect besides the state update): zero on the empty-evidence
short-circuit, one otherwise. Confidence is the deterministic blend
quality * 0.4 + coverage * 0.4 + evidence_strength * 0.2 (line 576). -/
def enhancedSynthesis (synthOracle : String → String → String)
    (s : EnhancedAgentState) : EnhancedAgentState × Nat :=
  let evidence_docs := s.evidence_docs.getD []
  if evidence_docs.isEmpty then
    ({ s with final_answer := some noEvidenceAnswer,
              answer_confidence := some 0 }, 0)
  else
    let context := formatDocs evidence_docs
    let quality_score := s.context_quality_score.getD (mkRat 5 10)
    let coverage_score := s.coverage_score.getD (mkRat 5 10)
    let evidence_strength := s.evidence_strength.getD (mkRat 5 10)
    let answer := pyStrip (synthOracle s.question context)
    let confidence :=
      ratAdd (ratAdd (ratMul quality_score (mkRat 4 10))
        (ratMul coverage_score (mkRat 4 10))) (ratMul evidence_strength (mkRat 2 10))
    ({ s with final_answer := some answer,
              answer_confidence := some confidence }, 1)

/-- Node advanced_verify (rishi_rag.py lines 583-621): short-circuits to a
fail verdict on empty evidence or an empty answer, otherwise compares the
parsed (or defaulted) overall_grounding with pass. Its returned update
dict contains only the grounded_ok key. -/
def advancedVerify (resp : Option ParsedVerification)
    (s : EnhancedAgentState) : EnhancedAgentState :=
  let answer := s.final_answer.getD ""
  let evidence_docs := s.evidence_docs.getD []
  if evidence_docs.isEmpty || decide (answer = "") then
    { s with grounded_ok := some false }
  else
    let verification := resp.getD defaultVerification
    let g : Bool :=
      decide (pyLower (verification.overall_grounding.getD "fail") = "pass")
    { s with grounded_ok := some g }

/-! ## The orchestrated graph (rishi_rag.py lines 232-261) -/

/-- One plan - retrieve - assess - decide cycle, repeated while the stop
flag is false (the conditional edge at lines 251-254). The fuel argument
makes the recursion structural; runGraph supplies a fuel value proved
sufficient (theorem runGraph_ne_fuelExhausted), so the fuelExhausted
branch is unreachable there. -/
def runLoopF (cfg : Config) (O : Oracle) :
    Nat → EnhancedAgentState → Except PyErr EnhancedAgentState
  | 0, _ => Except.error PyErr.fuelExhausted
  | fuel + 1, s =>
    match enhancedPlan (O.plan (s.iteration.getD 0)) s with
    | Except.error e => Except.error e
    | Except.ok s1 =>
      let s2 := parallelRetrieve O.semantic O.similarity s1
      let s3 := advancedAssess (O.assess (s2.iteration.getD 0)) s2
      match intelligentDecide cfg (O.decision (s3.iteration.getD 0)) s3 with
      | Except.error e => Except.error e
      | Except.ok s4 =>
        if s4.stop.getD false then Except.ok s4
        else runLoopF cfg O fuel s4

/-- Fuel bound for the loop: the decide node forces a stop verdict as soon
as the incremented counter reaches both min_iters and the budget, so
max min_iters budget + 1 cycles always suffice. -/
def loopFuel (cfg : Config) (s : EnhancedAgentState) : Nat :=
  max cfg.min_iters (s.max_dynamic_iters.getD cfg.default_max_iters) + 1

/-- A full graph invocation (entry point analyze_question, the loop, then
synthesis and verification, after which the graph reaches END). -/
def runGraph (cfg : Config) (O : Oracle) (question : String) :
    Except PyErr EnhancedAgentState :=
  let s1 := analyzeQuestion cfg O.analysis (initState question)
  match runLoopF cfg O (loopFuel cfg s1) s1 with
  | Except.error e => Except.error e
  | Except.ok sL =>
    Except.ok (advancedVerify O.verify (enhancedSynthesis O.synth sL).1)

/-! ## Public API (rishi_rag.py lines 625-693) -/

/-- The debug dict assembled by ask (rishi_rag.py lines 645-656). -/
structure DebugInfo where
  iterations : Nat
  evidence_count : Nat
  grounded_ok : Option Bool
  question_complexity : Rat
  context_quality_score : Rat
  coverage_score : Rat
  answer_confidence : Rat
  stop_reasons : List String
  last_gaps : List String
  last_sub_question : String
  deriving DecidableEq

/-- Builds the debug dict from the final state, mirroring each
final_state.get call at rishi_rag.py lines 645-656. -/
def mkDebug (fs : EnhancedAgentState) : DebugInfo :=
  { iterations := fs.iteration.getD 0
    evidence_count := (fs.evidence_docs.getD []).length
    grounded_ok := fs.grounded_ok
    question_complexity := fs.question_complexity.getD 0
    context_quality_score := fs.context_quality_score.getD 0
    coverage_score := fs.coverage_score.getD 0
    answer_confidence := fs.answer_confidence.getD 0
    stop_reasons := fs.stop_reasons.getD []
    last_gaps := takeLast 3 (fs.information_gaps.getD [])
    last_sub_question := fs.sub_question.getD "" }

/-- The public ask operation (rishi_rag.py lines 625-658). The max_iters
argument is bound to a local (mi in the source) that is never used; the
thread id only keys the checkpointer and does not influence the result. -/
def ask (cfg : Config) (O : Oracle) (question : String)
    (max_iters : Option Nat) (thread_id : Option String) :
    Except PyErr (String × DebugInfo) :=
  let mi := max_iters.getD cfg.default_max_iters
  let tid := thread_id.getD "enhanced-rag-fresh-uuid"
  (runGraph cfg O question).map
    (fun final_state => (final_state.final_answer.getD "", mkDebug final_state))

/-- The node names of one loop cycle, in execution order. -/
def loopNodeNames : List String :=
  ["enhanced_plan", "parallel_retrieve", "advanced_assess", "intelligent_decide"]

/-- Traced variant of the loop used by the streaming API: also returns the
sequence of node-completion events. Only node names are recorded because
the per-node events of the source carry payload.get("input") and
payload.get("output") of an update dict that never contains those keys, so
both are always None. -/
def runLoopT (cfg : Config) (O : Oracle) :
    Nat → EnhancedAgentState → Except PyErr (EnhancedAgentState × List String)
  | 0, _ => Except.error PyErr.fuelExhausted
  | fuel + 1, s =>
    match enhancedPlan (O.plan (s.iteration.getD 0)) s with
    | Except.error e => Except.error e
    | Except.ok s1 =>
      let s2 := parallelRetrieve O.semantic O.similarity s1
      let s3 := advancedAssess (O.assess (s2.iteration.getD 0)) s2
      match intelligentDecide cfg (O.decision (s3.iteration.getD 0)) s3 with
      | Except.error e => Except.error e
      | Except.ok s4 =>
        if s4.stop.getD false then Except.ok (s4, loopNodeNames)
        else (runLoopT cfg O fuel s4).map (fun p => (p.1, loopNodeNames ++ p.2))

/-- The public stream operation (rishi_rag.py lines 660-693): yields one
event per node completion, then re-invokes the whole graph to obtain the
final state (the redundant second execution present in the source). max_iters is again
bound to an unused local. -/
def streamRun (cfg : Config) (O : Oracle) (question : String)
    (max_iters : Option Nat) (thread_id : Option String) :
    Except PyErr (List String × EnhancedAgentState) :=
  let mi := max_iters.getD cfg.default_max_iters
  let s1 := analyzeQuestion cfg O.analysis (initState question)
  match runLoopT cfg O (loopFuel cfg s1) s1 with
  | Except.error e => Except.error e
  | Except.ok (_, events) =>
    (runGraph cfg O question).map (fun final_state =>
      ("analyze_question" :: events ++ ["enhanced_synthesis", "advanced_verify"],
       final_state))

/-! ## The HTTP endpoint policy_qa (app.py lines 685-709) -/

/-- Exceptions raised inside the try block of the endpoint: the explicit
empty-question HTTPException and any exception escaping the pipeline. -/
inductive PyExc where
  | httpException (status_code : Nat) (detail : String)
  | pipelineError (e : PyErr)
  deriving DecidableEq

/-- Python str() of such an exception, as interpolated into the 500
detail: a starlette HTTPException prints as status colon detail, a
KeyError prints its key in quotes. -/
def pyExcStr : PyExc → String
  | PyExc.httpException c d => toString c ++ ": " ++ d
  | PyExc.pipelineError (PyErr.keyError k) => "\x27" ++ k ++ "\x27"
  | PyExc.pipelineError PyErr.zeroDivisionError => "division by zero"
  | PyExc.pipelineError PyErr.fuelExhausted => "fuel exhausted"

/-- The successful JSON body of the endpoint. -/
structure QAResponse where
  status : String
  answer : String
  debug : DebugInfo
  deriving DecidableEq

/-- An HTTP error response (an HTTPException surfaced to the caller). -/
structure HTTPFailure where
  status_code : Nat
  detail : String
  deriving DecidableEq

/-- Embedding of the policy_qa endpoint (app.py lines 685-709). The whole
handler body is one try block whose except clause catches every Exception
- including the 422 HTTPException of the endpoint itself for an empty question,
since unlike the other endpoints of app.py this one has no separate
except-HTTPException-reraise clause - and converts it to a 500. The Bool
component records whether rag_pipeline.ask was invoked. -/
def policy_qa (askF : String → Option String → Except PyErr (String × DebugInfo))
    (question : String) (thread_id : Option String) :
    Except HTTPFailure QAResponse × Bool :=
  let body : Except PyExc QAResponse × Bool :=
    if pyStrip question = "" then
      (Except.error (PyExc.httpException 422 "Question cannot be empty"), false)
    else
      match askF question thread_id with
      | Except.error e => (Except.error (PyExc.pipelineError e), true)
      | Except.ok (final_answer, debug_info) =>
        (Except.ok { status := "success", answer := final_answer,
                     debug := debug_info }, true)
  match body with
  | (Except.ok r, invoked) => (Except.ok r, invoked)
  | (Except.error e, invoked) =>
    (Except.error { status_code := 500,
                    detail := "Error processing question: " ++ pyExcStr e },
     invoked)

/-! ## Spec-side formulas (for refinement comparison only)

The following definitions follow the words of the specification, not the
source, and exist to be compared with the source-derived analyzeQuestion. -/

/-- Modelled from the spec: clamp(x, lo, hi). -/
def specClamp (lo hi x : Int) : Int := max lo (min hi x)

/-- Modelled from the spec: the claimed budget formula
clamp(round(complexity * 0.8 + estimated_hops * 0.5), 2, configured_max). -/
def specMaxDynRound (configured_max : Nat) (complexity hops : Rat) : Int :=
  specClamp 2 (configured_max : Int) (round (complexity * 0.8 + hops * 0.5))

/-- The budget formula with round replaced by Python int() truncation,
which is what the source computes. -/
def specMaxDynTrunc (configured_max : Nat) (complexity hops : Rat) : Int :=
  specClamp 2 (configured_max : Int) (pyInt (complexity * 0.8 + hops * 0.5))

/-! ## Response well-formedness

The fields whose absence from a successfully parsed object the code does
not survive: these predicates delimit exactly the oracle responses under
which a run is free of exceptions. -/

/-- A planning response is survivable when every parsed sub-question entry
carries a query field (rishi_rag.py line 342 indexes it bare). -/
def PlanRespWF (r : Option ParsedPlan) : Prop :=
  ∀ p, r = some p → ∀ l, p.sub_questions = some l → ∀ sq ∈ l, sq.query.isSome

/-- A decision response is survivable when the parsed object carries a
stop_reasons field (rishi_rag.py line 529 indexes it bare). -/
def DecisionRespWF (r : Option ParsedDecision) : Prop :=
  ∀ d, r = some d → d.stop_reasons.isSome

/-! ## Concrete fixtures for witnesses and counterexamples -/

/-- An oracle whose every response fails to parse, so every node falls
back to its documented default, and whose retrievals return nothing. -/
def oracleNone : Oracle :=
  { analysis := none
    plan := fun _ => none
    semantic := fun _ => Except.ok []
    similarity := fun _ => Except.ok []
    assess := fun _ => none
    decision := fun _ => none
    synth := fun _ _ => ""
    verify := none }

/-- An oracle that answers stop to every decision prompt. -/
def oracleEarlyStop : Oracle :=
  { oracleNone with
    decision := fun _ => some
      { decision := some "stop", confidence := some (mkRat 9 10),
        stop_reasons := some [] } }

/-- A parsed planning response whose single sub-question entry lacks the
query field. -/
def planMissingQuery : ParsedPlan :=
  { sub_questions := some
      [{ query := none, priority := some 1, aspect := some "general",
         strategy := some "semantic" }] }

/-- A parsed decision object that lacks the stop_reasons field. -/
def decisionNoStopReasons : ParsedDecision :=
  { decision := some "continue", confidence := none, stop_reasons := none }

/-- An oracle whose decision responses parse but lack stop_reasons. -/
def oracleMissingStopReasons : Oracle :=
  { oracleNone with decision := fun _ => some decisionNoStopReasons }

/-- An oracle for the verification-failure scenario: it stops the loop at
the first opportunity, synthesises a nonempty answer from one retrieved
passage, and returns a parsed fail verdict. -/
def oracleVerifyFail : Oracle :=
  { oracleNone with
    semantic := fun _ => Except.ok
      [{ page_content := some "Policy text.", source := some "doc.pdf",
         file_path := none, page := some 3 }]
    decision := fun _ => some
      { decision := some "stop", confidence := some (mkRat 9 10),
        stop_reasons := some [] }
    synth := fun _ _ => "An answer."
    verify := some { overall_grounding := some "fail" } }

/-- The parsed analysis of the budget scenario in the specification:
complexity_score 9 and estimated_hops 8. -/
def analysis9and8 : ParsedAnalysis :=
  { complexity_score := some 9, question_type := none, estimated_hops := some 8,
    required_evidence_types := none, key_aspects := none }

/-- A parsed analysis exhibiting the round-versus-truncate discrepancy:
9.5 * 0.8 + 8 * 0.5 = 11.6, which round sends to 12 and int() to 11. -/
def analysisElevenPointSix : ParsedAnalysis :=
  { complexity_score := some (mkRat 95 10), question_type := none,
    estimated_hops := some 8, required_evidence_types := none,
    key_aspects := none }

/-- The configuration app.py line 99 passes to the constructor:
max_iters 3, min_iters 1. -/
def cfgApp : Config := { default_max_iters := 3, min_iters := 1 }

/-- A fixture run: budget 8, floor 2, an oracle that stops immediately. -/
def c1RunResult : Except PyErr EnhancedAgentState :=
  runGraph { default_max_iters := 8, min_iters := 2 } oracleEarlyStop "q"

/-- The final state of the fixture run (whose success is proved where it
is used). -/
def c1FinalState : EnhancedAgentState :=
  match c1RunResult with
  | Except.ok s => s
  | Except.error _ => initState "q"

/-- The state the verification-failure fixture run reaches when its loop
exits (its success is proved where it is used). -/
def c8LoopState : EnhancedAgentState :=
  match runLoopF cfgApp oracleVerifyFail
      (loopFuel cfgApp (analyzeQuestion cfgApp oracleVerifyFail.analysis (initState "q")))
      (analyzeQuestion cfgApp oracleVerifyFail.analysis (initState "q")) with
  | Except.ok s => s
  | Except.error _ => initState "q"

/-- A fixture passage already in the accumulator. -/
def passageA : Document :=
  { page_content := some "Clause one.", source := some "a.pdf",
    file_path := none, page := some 1 }

/-- A fixture passage returned by retrieval; it shares the dedup key of
passageA but has different content. -/
def passageB : Document :=
  { page_content := some "Different text.", source := some "a.pdf",
    file_path := none, page := some 1 }

/-- A fixture passage with a fresh dedup key. -/
def passageC : Document :=
  { page_content := some "Clause two.", source := some "b.pdf",
    file_path := none, page := some 2 }

/-- A retriever returning the two fixture passages. -/
def retBC : String → Except String (List Document) :=
  fun _ => Except.ok [passageB, passageC]

/-- A state mid-run whose accumulator already holds passageA. -/
def stateWithEvidence : EnhancedAgentState :=
  { initState "q" with evidence_docs := some [passageA] }

/-- A stand-in for rag_pipeline.ask inside the endpoint embedding. -/
def askStub : String → Option String → Except PyErr (String × DebugInfo) :=
  fun _ _ => Except.ok ("stub answer", mkDebug (initState "q"))

/-! ### Laws of dedupeAux -/

theorem dedupeAux_nil (seen : List (Option String × Option Int)) :
    dedupeAux seen [] = [] := rfl

theorem dedupeAux_cons (seen : List (Option String × Option Int))
    (d : Document) (ds : List Document) :
    dedupeAux seen (d :: ds)
      = if dedupKey d ∈ seen then dedupeAux seen ds
        else d :: dedupeAux (dedupKey d :: seen) ds := rfl

theorem dedupeAux_congr (s₁ s₂ : List (Option String × Option Int))
    (h : ∀ k, k ∈ s₁ ↔ k ∈ s₂) :
    ∀ ds : List Document, dedupeAux s₁ ds = dedupeAux s₂ ds := by
  intro ds
  induction ds generalizing s₁ s₂ with
  | nil => rfl
  | cons d ds ih =>
    rw [dedupeAux_cons, dedupeAux_cons]
    by_cases hd : dedupKey d ∈ s₁
    · rw [if_pos hd, if_pos ((h _).mp hd)]
      exact ih s₁ s₂ h
    · rw [if_neg hd, if_neg (fun hc => hd ((h _).mpr hc))]
      refine congrArg _ (ih _ _ ?_)
      intro k
      rw [List.mem_cons, List.mem_cons]
      exact or_congr Iff.rfl (h k)

theorem dedupeAux_append (seen : List (Option String × Option Int))
    (xs ys : List Document) :
    dedupeAux seen (xs ++ ys)
      = dedupeAux seen xs ++ dedupeAux (xs.map dedupKey ++ seen) ys := by
  induction xs generalizing seen with
  | nil =>
    rw [List.nil_append, List.map_nil, List.nil_append, dedupeAux_nil,
      List.nil_append]
  | cons d xs ih =>
    rw [List.cons_append, dedupeAux_cons, dedupeAux_cons, List.map_cons,
      List.cons_append]
    by_cases hd : dedupKey d ∈ seen
    · rw [if_pos hd, if_pos hd, ih seen]
      refine congrArg _ (dedupeAux_congr _ _ (fun k => ?_) ys)
      rw [List.mem_cons]
      constructor
      · exact Or.inr
      · rintro (rfl | hk)
        · exact List.mem_append_right _ hd
        · exact hk
    · rw [if_neg hd, if_neg hd, ih (dedupKey d :: seen), List.cons_append]
      refine congrArg _ (congrArg _ (dedupeAux_congr _ _ (fun k => ?_) ys))
      simp only [List.mem_append, List.mem_cons]
      tauto

theorem dedupeAux_key_mem (seen : List (Option String × Option Int))
    (ds : List Document) (k : Option String × Option Int) :
    k ∈ (dedupeAux seen ds).map dedupKey
      ↔ k ∈ ds.map dedupKey ∧ k ∉ seen := by
  induction ds generalizing seen with
  | nil => simp [dedupeAux_nil]
  | cons d ds ih =>
    rw [dedupeAux_cons]
    by_cases hd : dedupKey d ∈ seen
    · rw [if_pos hd, ih seen, List.map_cons, List.mem_cons]
      constructor
      · rintro ⟨hk, hns⟩
        exact ⟨Or.inr hk, hns⟩
      · rintro ⟨hk | hk, hns⟩
        · exact absurd (hk ▸ hd) hns
        · exact ⟨hk, hns⟩
    · rw [if_neg hd, List.map_cons, List.map_cons, List.mem_cons,
        List.mem_cons, ih (dedupKey d :: seen)]
      constructor
      · rintro (hk | ⟨hk, hns⟩)
        · exact ⟨Or.inl hk, hk ▸ hd⟩
        · refine ⟨Or.inr hk, fun hc => hns (List.mem_cons.mpr (Or.inr hc))⟩
      · rintro ⟨hk | hk, hns⟩
        · exact Or.inl hk
        · by_cases hkd : k = dedupKey d
          · exact Or.inl hkd
          · refine Or.inr ⟨hk, fun hc => ?_⟩
            rcases List.mem_cons.mp hc with h1 | h1
            · exact hkd h1
            · exact hns h1

theorem dedupeAux_of_nodup (seen : List (Option String × Option Int))
    (ds : List Document) (hnd : ds.Pairwise keyDistinct)
    (hdisj : ∀ d ∈ ds, dedupKey d ∉ seen) :
    dedupeAux seen ds = ds := by
  induction ds generalizing seen with
  | nil => rfl
  | cons d ds ih =>
    have hd : dedupKey d ∉ seen := hdisj d (List.mem_cons_self d ds)
    rw [dedupeAux_cons, if_neg hd]
    refine congrArg _ (ih _ (List.Pairwise.of_cons hnd) ?_)
    intro e he hc
    rcases List.mem_cons.mp hc with h1 | h1
    · exact (List.pairwise_cons.mp hnd).1 e he h1.symm
    · exact hdisj e (List.mem_cons.mpr (Or.inr he)) h1

theorem dedupeAux_eq_nil_of_seen (seen : List (Option String × Option Int))
    (ds : List Document) (h : ∀ d ∈ ds, dedupKey d ∈ seen) :
    dedupeAux seen ds = [] := by
  induction ds with
  | nil => rfl
  | cons d ds ih =>
    rw [dedupeAux_cons, if_pos (h d (List.mem_cons_self d ds))]
    exact ih fun e he => h e (List.mem_cons.mpr (Or.inr he))

theorem dedupeAux_pairwise (seen : List (Option String × Option Int))
    (ds : List Document) :
    (dedupeAux seen ds).Pairwise keyDistinct
      ∧ ∀ d ∈ dedupeAux seen ds, dedupKey d ∉ seen := by
  induction ds generalizing seen with
  | nil => exact ⟨List.Pairwise.nil, by simp [dedupeAux_nil]⟩
  | cons d ds ih =>
    rw [dedupeAux_cons]
    by_cases hd : dedupKey d ∈ seen
    · rw [if_pos hd]
      exact ih seen
    · rw [if_neg hd]
      obtain ⟨hpw, hmem⟩ := ih (dedupKey d :: seen)
      constructor
      · refine List.pairwise_cons.mpr ⟨?_, hpw⟩
        intro e he heq
        exact hmem e he (heq ▸ List.mem_cons_self _ _)
      · intro e he
        rcases List.mem_cons.mp he with h1 | h1
        · exact h1 ▸ hd
        · intro hc
          exact hmem e h1 (List.mem_cons.mpr (Or.inr hc))

theorem dedupeAux_sublist (seen : List (Option String × Option Int))
    (ds : List Document) : (dedupeAux seen ds).Sublist ds := by
  induction ds generalizing seen with
  | nil => exact List.Sublist.refl _
  | cons d ds ih =>
    rw [dedupeAux_cons]
    by_cases hd : dedupKey d ∈ seen
    · rw [if_pos hd]
      exact (ih seen).trans (List.sublist_cons_self d ds)
    · rw [if_neg hd]
      exact List.Sublist.cons₂ d (ih _)

theorem dedupeAux_mem_iff (seen : List (Option String × Option Int))
    (ds : List Document) (d : Document) :
    d ∈ dedupeAux seen ds
      ↔ dedupKey d ∉ seen
          ∧ ds.find? (fun x => dedupKey x = dedupKey d) = some d := by
  induction ds generalizing seen with
  | nil => simp [dedupeAux_nil]
  | cons x ds ih =>
    rw [dedupeAux_cons]
    by_cases hk : dedupKey x = dedupKey d
    · rw [List.find?_cons_of_pos _ (by simpa using hk)]
      by_cases hx : dedupKey x ∈ seen
      · rw [if_pos hx, ih seen]
        constructor
        · rintro ⟨hns, hf⟩
          have hdm : d ∈ ds := List.mem_of_find?_eq_some hf
          exact absurd (hk ▸ hx) hns
        · rintro ⟨hns, hf⟩
          have : x = d := by simpa using hf
          exact absurd (hk ▸ hx) (this ▸ hns)
      · rw [if_neg hx, List.mem_cons]
        constructor
        · rintro (rfl | hmem)
          · exact ⟨hk ▸ hx, rfl⟩
          · obtain ⟨hns, _⟩ := (ih _).mp hmem
            exact absurd (List.mem_cons_self _ _) (hk ▸ hns)
        · rintro ⟨hns, hf⟩
          have : x = d := by simpa using hf
          exact Or.inl this.symm
    · rw [List.find?_cons_of_neg _ (by simpa using hk)]
      by_cases hx : dedupKey x ∈ seen
      · rw [if_pos hx]
        exact ih seen
      · rw [if_neg hx, List.mem_cons, ih (dedupKey x :: seen)]
        constructor
        · rintro (rfl | ⟨hns, hf⟩)
          · exact absurd rfl hk
          · exact ⟨fun hc => hns (List.mem_cons.mpr (Or.inr hc)), hf⟩
        · rintro ⟨hns, hf⟩
          refine Or.inr ⟨fun hc => ?_, hf⟩
          rcases List.mem_cons.mp hc with h1 | h1
          · exact hk h1.symm
          · exact hns h1

/-! ### Derived facts about the evidence merge -/

theorem mergeEvidence_eq_append (acc batch : List Document)
    (hnd : acc.Pairwise keyDistinct) :
    mergeEvidence acc batch = acc ++ dedupeAux (acc.map dedupKey) batch := by
  rw [mergeEvidence, dedupeDocs, dedupeAux_append,
    dedupeAux_of_nodup [] acc hnd (by simp), List.append_nil]

theorem mergeEvidence_pairwise (acc batch : List Document) :
    (mergeEvidence acc batch).Pairwise keyDistinct :=
  (dedupeAux_pairwise [] (acc ++ batch)).1

theorem dedupeDocs_pairwise (docs : List Document) :
    (dedupeDocs docs).Pairwise keyDistinct :=
  (dedupeAux_pairwise [] docs).1

/-- The evidence accumulator a retrieval round writes is exactly the merge
of the previous accumulator with the fused batch of the round. -/
theorem parallelRetrieve_evidence
    (semantic similarity : String → Except String (List Document))
    (s : EnhancedAgentState) :
    (parallelRetrieve semantic similarity s).evidence_docs
      = some (mergeEvidence (s.evidence_docs.getD [])
          (fusedBatch semantic similarity s)) := rfl

/-- The accumulator keeps pairwise-distinct keys after every retrieval
round; together with the analyzer reset to the empty list this is the
run invariant that justifies the key-distinctness hypothesis of the
monotonicity theorem. -/
theorem parallelRetrieve_evidence_pairwise
    (semantic similarity : String → Except String (List Document))
    (s : EnhancedAgentState) :
    ((parallelRetrieve semantic similarity s).evidence_docs.getD []).Pairwise
      keyDistinct := by
  rw [parallelRetrieve_evidence, Option.getD_some]
  exact mergeEvidence_pairwise _ _

theorem analyzeQuestion_evidence (cfg : Config) (r : Option ParsedAnalysis)
    (s : EnhancedAgentState) :
    (analyzeQuestion cfg r s).evidence_docs = some [] := rfl

/-! ### Per-node bookkeeping lemmas -/

theorem analyzeQuestion_iteration (cfg : Config) (r : Option ParsedAnalysis)
    (s : EnhancedAgentState) : (analyzeQuestion cfg r s).iteration = some 0 := rfl

theorem analyzeQuestion_budget (cfg : Config) (r : Option ParsedAnalysis)
    (s : EnhancedAgentState) :
    (analyzeQuestion cfg r s).max_dynamic_iters
      = some (min (cfg.default_max_iters : Int)
          (max 2 (pyInt (ratAdd
            (ratMul ((r.getD defaultAnalysis).complexity_score.getD 5) (mkRat 8 10))
            (ratMul ((r.getD defaultAnalysis).estimated_hops.getD 4) (mkRat 5 10)))))).toNat := rfl


theorem extractQueries_error (l : List SubQ) (e : PyErr)
    (h : extractQueries l = Except.error e) : e = PyErr.keyError "query" := by
  induction l with
  | nil => exact absurd h (by simp [extractQueries])
  | cons sq l ih =>
    rw [extractQueries] at h
    split at h
    · injection h with h
      exact h.symm
    · split at h
      · injection h with h
        rename_i heq
        exact ih (h ▸ heq)
      · exact absurd h (by simp)

theorem extractQueries_ok (l : List SubQ) (hq : ∀ sq ∈ l, sq.query.isSome) :
    ∃ qs, extractQueries l = Except.ok qs := by
  induction l with
  | nil => exact ⟨[], rfl⟩
  | cons sq l ih =>
    obtain ⟨q, hsq⟩ := Option.isSome_iff_exists.mp (hq sq (List.mem_cons_self _ _))
    obtain ⟨qs, hqs⟩ := ih fun x hx => hq x (List.mem_cons.mpr (Or.inr hx))
    refine ⟨q :: qs, ?_⟩
    rw [extractQueries, hsq, hqs]

theorem mem_insertByPriority (a x : SubQ) (l : List SubQ) :
    x ∈ insertByPriority a l ↔ x = a ∨ x ∈ l := by
  induction l with
  | nil => simp [insertByPriority]
  | cons b l ih =>
    rw [insertByPriority]
    split
    · simp
    · rw [List.mem_cons, ih, List.mem_cons]
      tauto

theorem mem_sortByPriorityDesc (x : SubQ) (l : List SubQ) :
    x ∈ sortByPriorityDesc l ↔ x ∈ l := by
  induction l with
  | nil => simp [sortByPriorityDesc]
  | cons a l ih =>
    rw [sortByPriorityDesc, mem_insertByPriority, ih, List.mem_cons]

theorem enhancedPlan_ok_pres (resp : Option ParsedPlan)
    (s s' : EnhancedAgentState) (h : enhancedPlan resp s = Except.ok s') :
    s'.iteration = s.iteration ∧ s'.max_dynamic_iters = s.max_dynamic_iters := by
  simp only [enhancedPlan] at h
  split at h
  · exact Except.noConfusion h
  · injection h with h
    subst h
    exact ⟨rfl, rfl⟩

theorem enhancedPlan_error_shape (resp : Option ParsedPlan)
    (s : EnhancedAgentState) (e : PyErr)
    (h : enhancedPlan resp s = Except.error e) : e = PyErr.keyError "query" := by
  simp only [enhancedPlan] at h
  split at h
  · rename_i e₁ heq
    injection h with h
    exact h ▸ extractQueries_error _ _ heq
  · exact Except.noConfusion h

theorem enhancedPlan_ok_of_wf (resp : Option ParsedPlan)
    (s : EnhancedAgentState) (hwf : PlanRespWF resp) :
    ∃ s', enhancedPlan resp s = Except.ok s' := by
  have hq : ∀ sq ∈ (sortByPriorityDesc
      ((resp.getD (defaultPlan s.question)).sub_questions.getD [])).take 3,
      sq.query.isSome := by
    intro sq hsq
    have hmem : sq ∈ (resp.getD (defaultPlan s.question)).sub_questions.getD [] := by
      have := List.mem_of_mem_take hsq
      rwa [mem_sortByPriorityDesc] at this
    cases resp with
    | none =>
      simp only [Option.getD_some, defaultPlan] at hmem
      rcases List.mem_cons.mp hmem with h1 | h1
      · subst h1; rfl
      · exact absurd h1 (List.not_mem_nil _)
    | some p =>
      cases hps : p.sub_questions with
      | none => rw [Option.getD_some, hps] at hmem; exact absurd hmem (List.not_mem_nil _)
      | some l =>
        rw [Option.getD_some, hps, Option.getD_some] at hmem
        exact hwf p rfl l hps sq hmem
  obtain ⟨qs, hqs⟩ := extractQueries_ok _ hq
  cases hp : enhancedPlan resp s with
  | ok s' => exact ⟨s', rfl⟩
  | error e =>
    exfalso
    simp only [enhancedPlan] at hp
    split at hp
    · rename_i e₁ heq
      rw [hqs] at heq
      exact Except.noConfusion heq
    · exact Except.noConfusion hp

theorem parallelRetrieve_iteration
    (a b : String → Except String (List Document)) (s : EnhancedAgentState) :
    (parallelRetrieve a b s).iteration = s.iteration := rfl

theorem parallelRetrieve_maxdyn
    (a b : String → Except String (List Document)) (s : EnhancedAgentState) :
    (parallelRetrieve a b s).max_dynamic_iters = s.max_dynamic_iters := rfl

theorem advancedAssess_iteration (r : Option ParsedAssessment)
    (s : EnhancedAgentState) : (advancedAssess r s).iteration = s.iteration := by
  simp only [advancedAssess]
  split <;> rfl

theorem advancedAssess_maxdyn (r : Option ParsedAssessment)
    (s : EnhancedAgentState) :
    (advancedAssess r s).max_dynamic_iters = s.max_dynamic_iters := by
  simp only [advancedAssess]
  split <;> rfl

theorem enhancedSynthesis_iteration (o : String → String → String)
    (s : EnhancedAgentState) :
    ((enhancedSynthesis o s).1).iteration = s.iteration := by
  simp only [enhancedSynthesis]
  split <;> rfl

theorem enhancedSynthesis_maxdyn (o : String → String → String)
    (s : EnhancedAgentState) :
    ((enhancedSynthesis o s).1).max_dynamic_iters = s.max_dynamic_iters := by
  simp only [enhancedSynthesis]
  split <;> rfl

theorem advancedVerify_iteration (r : Option ParsedVerification)
    (s : EnhancedAgentState) : (advancedVerify r s).iteration = s.iteration := by
  simp only [advancedVerify]
  split <;> rfl

theorem advancedVerify_maxdyn (r : Option ParsedVerification)
    (s : EnhancedAgentState) :
    (advancedVerify r s).max_dynamic_iters = s.max_dynamic_iters := by
  simp only [advancedVerify]
  split <;> rfl

/-- The verification node only ever writes the grounded_ok key. -/
theorem advancedVerify_frame (r : Option ParsedVerification)
    (s : EnhancedAgentState) :
    advancedVerify r s = { s with grounded_ok := (advancedVerify r s).grounded_ok } := by
  simp only [advancedVerify]
  split <;> rfl

/-- Everything the loop analysis needs about a successful decide step: the
counter increments by one, the budget is untouched and nonzero (a zero
budget would have divided by zero), a stop verdict implies the floor was
reached, and a continue verdict implies either the floor or the budget was
still ahead. -/
theorem intelligentDecide_ok_spec (cfg : Config) (resp : Option ParsedDecision)
    (s s' : EnhancedAgentState)
    (h : intelligentDecide cfg resp s = Except.ok s') :
    s'.iteration = some (s.iteration.getD 0 + 1)
    ∧ s'.max_dynamic_iters = s.max_dynamic_iters
    ∧ 1 ≤ s.max_dynamic_iters.getD cfg.default_max_iters
    ∧ (s'.stop.getD false = true → cfg.min_iters ≤ s.iteration.getD 0 + 1)
    ∧ (s'.stop.getD false = false →
        s.iteration.getD 0 + 1 < cfg.min_iters
        ∨ s.iteration.getD 0 + 1 < s.max_dynamic_iters.getD cfg.default_max_iters) := by
  simp only [intelligentDecide] at h
  split at h
  · exact Except.noConfusion h
  · rename_i stop1 dr heq
    split at h
    · exact Except.noConfusion h
    · rename_i hmz
      injection h with h
      subst h
      refine ⟨rfl, rfl, Nat.pos_of_ne_zero hmz, ?_, ?_⟩
      · intro ht
        have ht2 : (if s.iteration.getD 0 + 1 < cfg.min_iters then false
            else stop1) = true := ht
        split at ht2
        · exact absurd ht2 (by simp)
        · rename_i hk
          omega
      · intro hf
        have hf2 : (if s.iteration.getD 0 + 1 < cfg.min_iters then false
            else stop1) = false := hf
        split at hf2
        · rename_i hk
          exact Or.inl hk
        · rename_i hk
          right
          split at heq
          · split at heq
            · exact Except.noConfusion heq
            · injection heq with heq
              cases heq
              exact absurd hf2 (by simp)
          · rename_i hlt
            omega

/-- A decide step can only fail through the bare stop_reasons subscript
or the iteration-ratio division. -/
theorem intelligentDecide_error_shape (cfg : Config) (resp : Option ParsedDecision)
    (s : EnhancedAgentState) (e : PyErr)
    (h : intelligentDecide cfg resp s = Except.error e) :
    (e = PyErr.keyError "stop_reasons"
      ∧ (resp.getD defaultDecision).stop_reasons = none)
    ∨ (e = PyErr.zeroDivisionError
      ∧ s.max_dynamic_iters.getD cfg.default_max_iters = 0) := by
  simp only [intelligentDecide] at h
  split at h
  · rename_i e₁ heq
    injection h with h
    subst h
    split at heq
    · split at heq
      · rename_i hnone
        injection heq with heq
        exact Or.inl ⟨heq.symm, hnone⟩
      · exact Except.noConfusion heq
    · exact Except.noConfusion heq
  · rename_i p heq
    split at h
    · rename_i hz
      injection h with h
      exact Or.inr ⟨h.symm, hz⟩
    · exact Except.noConfusion h

/-- A decide step succeeds whenever the response carries stop_reasons (or
failed to parse altogether) and the budget is nonzero. -/
theorem intelligentDecide_ok_of_wf (cfg : Config) (resp : Option ParsedDecision)
    (s : EnhancedAgentState) (hwf : DecisionRespWF resp)
    (hm : 1 ≤ s.max_dynamic_iters.getD cfg.default_max_iters) :
    ∃ s', intelligentDecide cfg resp s = Except.ok s' := by
  cases hd : intelligentDecide cfg resp s with
  | ok s' => exact ⟨s', rfl⟩
  | error e =>
    exfalso
    rcases intelligentDecide_error_shape cfg resp s e hd with ⟨_, hnone⟩ | ⟨_, hz⟩
    · cases hresp : resp with
      | none => rw [hresp] at hnone; exact Option.noConfusion hnone
      | some d =>
        have := hwf d hresp
        rw [hresp, Option.getD_some] at hnone
        rw [hnone] at this
        exact Bool.noConfusion this
    · omega

/-! ### Loop analysis -/

/-- Invariants of every successful loop exit: the budget key is preserved,
the final counter honours the floor, and - measured from any entry point
below the bound - never exceeds max min_iters (max budget 1). -/
theorem runLoopF_ok_spec (cfg : Config) (O : Oracle) :
    ∀ fuel (s s' : EnhancedAgentState), runLoopF cfg O fuel s = Except.ok s' →
      s'.max_dynamic_iters = s.max_dynamic_iters
      ∧ cfg.min_iters ≤ s'.iteration.getD 0
      ∧ (∀ m, s.max_dynamic_iters = some m → 1 ≤ m)
      ∧ ∀ m, s.max_dynamic_iters = some m →
          s.iteration.getD 0 < max cfg.min_iters (max m 1) →
          s'.iteration.getD 0 ≤ max cfg.min_iters (max m 1) := by
  intro fuel
  induction fuel with
  | zero =>
    intro s s' h
    exact absurd h (by simp [runLoopF])
  | succ f ih =>
    intro s s' h
    simp only [runLoopF] at h
    split at h
    · exact Except.noConfusion h
    · rename_i s1 hplan
      split at h
      · exact Except.noConfusion h
      · rename_i s4 hdec
        have hp := enhancedPlan_ok_pres _ _ _ hplan
        have hd := intelligentDecide_ok_spec _ _ _ _ hdec
        have hit3 : (advancedAssess
              (O.assess ((parallelRetrieve O.semantic O.similarity s1).iteration.getD 0))
              (parallelRetrieve O.semantic O.similarity s1)).iteration = s.iteration :=
          (advancedAssess_iteration _ _).trans
            ((parallelRetrieve_iteration _ _ _).trans hp.1)
        have hmax3 : (advancedAssess
              (O.assess ((parallelRetrieve O.semantic O.similarity s1).iteration.getD 0))
              (parallelRetrieve O.semantic O.similarity s1)).max_dynamic_iters
            = s.max_dynamic_iters :=
          (advancedAssess_maxdyn _ _).trans
            ((parallelRetrieve_maxdyn _ _ _).trans hp.2)
        have hit4 : s4.iteration = some (s.iteration.getD 0 + 1) := by
          rw [hd.1, hit3]
        have hmax4 : s4.max_dynamic_iters = s.max_dynamic_iters :=
          hd.2.1.trans hmax3
        have hpos : ∀ m, s.max_dynamic_iters = some m → 1 ≤ m := by
          intro m hm
          have hb := hd.2.2.1
          rw [hmax3, hm] at hb
          simpa using hb
        split at h
        · rename_i hstop
          injection h with h
          subst h
          refine ⟨hmax4, ?_, hpos, ?_⟩
          · have hmin := hd.2.2.2.1 hstop
            rw [hit3] at hmin
            rw [hit4]
            simpa using hmin
          · intro m hm hlt
            rw [hit4]
            simp only [Option.getD_some]
            omega
        · rename_i hstop
          have hcont : s4.stop.getD false = false := by
            cases hb : s4.stop.getD false
            · rfl
            · exact absurd hb hstop
          obtain ⟨ihmax, ihmin, _, ihupper⟩ := ih s4 s' h
          refine ⟨ihmax.trans hmax4, ihmin, hpos, ?_⟩
          intro m hm hlt
          have hd4 := hd.2.2.2.2 hcont
          rw [hit3, hmax3, hm] at hd4
          simp only [Option.getD_some] at hd4
          refine ihupper m (hmax4.trans hm) ?_
          rw [hit4]
          simp only [Option.getD_some]
          omega

/-- With survivable oracle responses and a nonzero budget the loop always
exits successfully within the fuel bound. -/
theorem runLoopF_completes (cfg : Config) (O : Oracle)
    (hwP : ∀ n, PlanRespWF (O.plan n)) (hwD : ∀ n, DecisionRespWF (O.decision n)) :
    ∀ fuel (s : EnhancedAgentState) m, s.max_dynamic_iters = some m → 1 ≤ m →
      1 ≤ fuel → max cfg.min_iters m < s.iteration.getD 0 + fuel →
      ∃ s', runLoopF cfg O fuel s = Except.ok s' := by
  intro fuel
  induction fuel with
  | zero => intro s m _ _ h1 _; omega
  | succ f ih =>
    intro s m hm hm1 _ hfuel
    obtain ⟨s1, hplan⟩ := enhancedPlan_ok_of_wf (O.plan (s.iteration.getD 0)) s (hwP _)
    have hp := enhancedPlan_ok_pres _ _ _ hplan
    have hit3 : (advancedAssess
          (O.assess ((parallelRetrieve O.semantic O.similarity s1).iteration.getD 0))
          (parallelRetrieve O.semantic O.similarity s1)).iteration = s.iteration :=
      (advancedAssess_iteration _ _).trans
        ((parallelRetrieve_iteration _ _ _).trans hp.1)
    have hmax3 : (advancedAssess
          (O.assess ((parallelRetrieve O.semantic O.similarity s1).iteration.getD 0))
          (parallelRetrieve O.semantic O.similarity s1)).max_dynamic_iters
        = some m :=
      ((advancedAssess_maxdyn _ _).trans
        ((parallelRetrieve_maxdyn _ _ _).trans hp.2)).trans hm
    obtain ⟨s4, hdec⟩ := intelligentDecide_ok_of_wf cfg _ _ (hwD _)
      (by rw [hmax3]; simpa using hm1)
    have hd := intelligentDecide_ok_spec _ _ _ _ hdec
    have hit4 : s4.iteration = some (s.iteration.getD 0 + 1) := by
      rw [hd.1, hit3]
    have hmax4 : s4.max_dynamic_iters = some m := hd.2.1.trans hmax3
    rw [runLoopF, hplan]
    dsimp only
    rw [hdec]
    dsimp only
    by_cases hstop : s4.stop.getD false = true
    · rw [if_pos hstop]
      exact ⟨s4, rfl⟩
    · have hcont : s4.stop.getD false = false := by
        cases hb : s4.stop.getD false
        · rfl
        · exact absurd hb hstop
      rw [if_neg hstop]
      have hd4 := hd.2.2.2.2 hcont
      rw [hit3, hmax3] at hd4
      simp only [Option.getD_some] at hd4
      refine ih s4 m hmax4 hm1 (by omega) ?_
      rw [hit4]
      simp only [Option.getD_some]
      omega

/-- The fuel bound is never the reason a loop run ends: within the bound
the loop either exits or surfaces a genuine Python exception. -/
theorem runLoopF_ne_fuel (cfg : Config) (O : Oracle) :
    ∀ fuel (s : EnhancedAgentState) m, s.max_dynamic_iters = some m →
      1 ≤ fuel → max cfg.min_iters m < s.iteration.getD 0 + fuel →
      runLoopF cfg O fuel s ≠ Except.error PyErr.fuelExhausted := by
  intro fuel
  induction fuel with
  | zero => intro s m _ h1 _; omega
  | succ f ih =>
    intro s m hm _ hfuel h
    simp only [runLoopF] at h
    split at h
    · rename_i e hplan
      injection h with h
      subst h
      exact absurd (enhancedPlan_error_shape _ _ _ hplan) (by simp)
    · rename_i s1 hplan
      have hp := enhancedPlan_ok_pres _ _ _ hplan
      split at h
      · rename_i e hdec
        injection h with h
        subst h
        rcases intelligentDecide_error_shape _ _ _ _ hdec with ⟨he, _⟩ | ⟨he, _⟩ <;>
          exact absurd he (by simp)
      · rename_i s4 hdec
        have hd := intelligentDecide_ok_spec _ _ _ _ hdec
        have hit3 : (advancedAssess
              (O.assess ((parallelRetrieve O.semantic O.similarity s1).iteration.getD 0))
              (parallelRetrieve O.semantic O.similarity s1)).iteration = s.iteration :=
          (advancedAssess_iteration _ _).trans
            ((parallelRetrieve_iteration _ _ _).trans hp.1)
        have hmax3 : (advancedAssess
              (O.assess ((parallelRetrieve O.semantic O.similarity s1).iteration.getD 0))
              (parallelRetrieve O.semantic O.similarity s1)).max_dynamic_iters
            = some m :=
          ((advancedAssess_maxdyn _ _).trans
            ((parallelRetrieve_maxdyn _ _ _).trans hp.2)).trans hm
        have hit4 : s4.iteration = some (s.iteration.getD 0 + 1) := by
          rw [hd.1, hit3]
        have hmax4 : s4.max_dynamic_iters = some m := hd.2.1.trans hmax3
        split at h
        · exact Except.noConfusion h
        · rename_i hstop
          have hcont : s4.stop.getD false = false := by
            cases hb : s4.stop.getD false
            · rfl
            · exact absurd hb hstop
          have hd4 := hd.2.2.2.2 hcont
          rw [hit3, hmax3] at hd4
          simp only [Option.getD_some] at hd4
          refine ih s4 m hmax4 (by omega) ?_ h
          rw [hit4]
          simp only [Option.getD_some]
          omega

/-- The executable embedding is faithful: the fuel bound runGraph passes
to the loop is always sufficient, so the artificial fuelExhausted outcome
never escapes a graph invocation. -/
theorem runGraph_ne_fuelExhausted (cfg : Config) (O : Oracle) (q : String) :
    runGraph cfg O q ≠ Except.error PyErr.fuelExhausted := by
  intro h
  simp only [runGraph] at h
  split at h
  · rename_i e hloop
    injection h with h
    subst h
    refine runLoopF_ne_fuel cfg O _ _ _ rfl ?_ ?_ hloop
    · simp [loopFuel]
    · simp only [loopFuel, analyzeQuestion_iteration, analyzeQuestion_budget,
        Option.getD_some]
      omega
  · exact Except.noConfusion h

/-! ## Claim theorems -/

/-- C1: for every run in which min_iters does not exceed max_dynamic_iters,
the iteration counter in the final state is at least min_iters and at most
max_dynamic_iters, regardless of the oracle decisions: the Controller
forces stop once iteration + 1 reaches the budget, forces continue while
iteration + 1 is below the floor, and the orchestrator loops back to
planning exactly while stop is false. -/
theorem iteration_bounds_of_runGraph (cfg : Config) (O : Oracle) (q : String)
    (s : EnhancedAgentState) (m : Nat)
    (hrun : runGraph cfg O q = Except.ok s)
    (hm : s.max_dynamic_iters = some m)
    (hmin : cfg.min_iters ≤ m) :
    cfg.min_iters ≤ s.iteration.getD 0 ∧ s.iteration.getD 0 ≤ m := by
  simp only [runGraph] at hrun
  split at hrun
  · exact Except.noConfusion hrun
  · rename_i sL hloop
    injection hrun with hrun
    subst hrun
    have hits : (advancedVerify O.verify
          (enhancedSynthesis O.synth sL).1).iteration = sL.iteration :=
      (advancedVerify_iteration _ _).trans (enhancedSynthesis_iteration _ _)
    have hmaxs : (advancedVerify O.verify
          (enhancedSynthesis O.synth sL).1).max_dynamic_iters
        = sL.max_dynamic_iters :=
      (advancedVerify_maxdyn _ _).trans (enhancedSynthesis_maxdyn _ _)
    rw [hmaxs] at hm
    obtain ⟨hLmax, hLmin, hLpos, hLupper⟩ := runLoopF_ok_spec cfg O _ _ _ hloop
    have hentry : (analyzeQuestion cfg O.analysis (initState q)).max_dynamic_iters
        = some m := hLmax.symm.trans hm
    have hm1 : 1 ≤ m := hLpos m hentry
    have hub := hLupper m hentry
      (by rw [analyzeQuestion_iteration]; simp only [Option.getD_some]; omega)
    constructor
    · rw [hits]
      exact hLmin
    · rw [hits]
      omega

/-- Witness for C1 at a concrete run: budget 8, floor 2, an oracle that
answers stop immediately; the analyzer computes budget 6 and the run stops
at iteration 2. -/
theorem iteration_bounds_witness :
    (2 : Nat) ≤ c1FinalState.iteration.getD 0 ∧ c1FinalState.iteration.getD 0 ≤ 6 :=
  iteration_bounds_of_runGraph { default_max_iters := 8, min_iters := 2 }
    oracleEarlyStop "q" c1FinalState 6 (by decide) (by decide) (by decide)

/-! ### Bridges between executable and Mathlib rational arithmetic -/

theorem ratMul_eq (a b : Rat) : ratMul a b = a * b := by
  rw [ratMul, Rat.mkRat_eq_div]
  push_cast
  conv_rhs => rw [← Rat.num_div_den a, ← Rat.num_div_den b]
  rw [div_mul_div_comm]

theorem ratAdd_eq (a b : Rat) : ratAdd a b = a + b := by
  rw [ratAdd, Rat.mkRat_eq_div]
  push_cast
  conv_rhs => rw [← Rat.num_div_den a, ← Rat.num_div_den b]
  rw [div_add_div _ _ (by exact_mod_cast a.den_nz) (by exact_mod_cast b.den_nz)]
  ring_nf

theorem rat_neg_eq (b : Rat) : Rat.neg b = -b := rfl

theorem ratSub_eq (a b : Rat) : ratSub a b = a - b := by
  rw [ratSub, ratAdd_eq, rat_neg_eq, sub_eq_add_neg]

theorem ratInv_eq (b : Rat) : ratInv b = b⁻¹ := by
  rw [ratInv]
  exact (Rat.inv_def b).symm

theorem ratDiv_eq (a b : Rat) : ratDiv a b = a / b := by
  rw [ratDiv, ratMul_eq, ratInv_eq, div_eq_mul_inv]

theorem PlanRespWF_none : PlanRespWF none := fun _ hp => Option.noConfusion hp

theorem DecisionRespWF_none : DecisionRespWF none := fun _ hp => Option.noConfusion hp

/-- C2 counterexample: a successfully parsed sub-question entry lacking
the query field makes the planner raise KeyError, and a successfully
parsed decision object lacking the stop_reasons field makes the whole run
raise KeyError at the budget-exhausted iteration, contradicting the claim
that malformed model output never causes the run to raise. -/
theorem parse_fallback_counterexample :
    enhancedPlan (some planMissingQuery) (initState "q")
      = Except.error (PyErr.keyError "query")
    ∧ runGraph { default_max_iters := 2, min_iters := 0 }
        oracleMissingStopReasons "q"
      = Except.error (PyErr.keyError "stop_reasons") :=
  ⟨by decide, by decide⟩

/-- C2 amended: a whole-response parse failure at any node is recovered by
the documented defaults, and a run is free of exceptions whenever every
successfully parsed plan entry carries a query field and every
successfully parsed decision carries a stop_reasons field (and the
configured budget is at least one); under those conditions every run
completes and returns a final state. -/
theorem parse_fallback_amended (cfg : Config) (O : Oracle) (q : String)
    (hplan : ∀ n, PlanRespWF (O.plan n))
    (hdec : ∀ n, DecisionRespWF (O.decision n))
    (hmax : 1 ≤ cfg.default_max_iters) :
    ∃ s, runGraph cfg O q = Except.ok s := by
  obtain ⟨sL, hL⟩ := runLoopF_completes cfg O hplan hdec
    (loopFuel cfg (analyzeQuestion cfg O.analysis (initState q)))
    (analyzeQuestion cfg O.analysis (initState q)) _
    (analyzeQuestion_budget cfg O.analysis (initState q)) (by omega) (by simp [loopFuel])
    (by
      simp only [loopFuel, analyzeQuestion_iteration, analyzeQuestion_budget,
        Option.getD_some]
      omega)
  refine ⟨advancedVerify O.verify (enhancedSynthesis O.synth sL).1, ?_⟩
  simp only [runGraph]
  rw [hL]

/-- Witness for the amended C2: with every oracle response failing to
parse, the run completes. -/
theorem parse_fallback_amended_witness :
    (runGraph { default_max_iters := 8, min_iters := 2 } oracleNone "q").isOk
      = true := by
  obtain ⟨s, hs⟩ := parse_fallback_amended { default_max_iters := 8, min_iters := 2 }
    oracleNone "q" (fun _ => PlanRespWF_none) (fun _ => DecisionRespWF_none)
    (by decide)
  rw [hs]
  rfl

/-- C3 counterexample: at complexity_score 9.5 and estimated_hops 8 with
configured maximum 20, the source computes a budget of 11 (Python int()
truncates 11.6) while the specified formula with round gives 12. -/
theorem budget_formula_counterexample :
    (analyzeQuestion { default_max_iters := 20, min_iters := 0 }
        (some analysisElevenPointSix) (initState "q")).max_dynamic_iters
      = some 11
    ∧ specMaxDynRound 20 (analysisElevenPointSix.complexity_score.getD 5)
        (analysisElevenPointSix.estimated_hops.getD 4) = 12
    ∧ (11 : Nat) ≠ 12 := by
  refine ⟨by decide, ?_, by decide⟩
  have h95 : (analysisElevenPointSix.complexity_score.getD 5) = mkRat 95 10 := rfl
  have h8 : (analysisElevenPointSix.estimated_hops.getD 4) = 8 := rfl
  rw [h95, h8, specMaxDynRound, specClamp]
  have harg : (mkRat 95 10 : Rat) * 0.8 + 8 * 0.5 = 58 / 5 := by
    norm_num [Rat.mkRat_eq_div]
  rw [harg]
  have hround : round ((58 : Rat) / 5) = 12 := by
    rw [round_eq]
    norm_num
  rw [hround]
  decide

/-- C3 amended: the Analyzer computes the budget as
clamp(int(complexity * 0.8 + estimated_hops * 0.5), 2, configured_max)
with Python int() truncation in place of round (the two agree on the
specified scenario 9, 8), provided configured_max is at least 2; the
budget is set together with iteration 0, exactly once: no other node ever
writes it. -/
theorem budget_formula_amended (cfg : Config) (resp : Option ParsedAnalysis)
    (s : EnhancedAgentState) (h2 : 2 ≤ cfg.default_max_iters) :
    ((analyzeQuestion cfg resp s).max_dynamic_iters
      = some (specMaxDynTrunc cfg.default_max_iters
          ((resp.getD defaultAnalysis).complexity_score.getD 5)
          ((resp.getD defaultAnalysis).estimated_hops.getD 4)).toNat
      ∧ (analyzeQuestion cfg resp s).iteration = some 0)
    ∧ (∀ r₁ s₁ s₂, enhancedPlan r₁ s₁ = Except.ok s₂ →
        s₂.max_dynamic_iters = s₁.max_dynamic_iters)
    ∧ (∀ a b s₁, (parallelRetrieve a b s₁).max_dynamic_iters = s₁.max_dynamic_iters)
    ∧ (∀ r₁ s₁, (advancedAssess r₁ s₁).max_dynamic_iters = s₁.max_dynamic_iters)
    ∧ (∀ cfg₁ r₁ s₁ s₂, intelligentDecide cfg₁ r₁ s₁ = Except.ok s₂ →
        s₂.max_dynamic_iters = s₁.max_dynamic_iters)
    ∧ (∀ o s₁, ((enhancedSynthesis o s₁).1).max_dynamic_iters = s₁.max_dynamic_iters)
    ∧ (∀ r₁ s₁, (advancedVerify r₁ s₁).max_dynamic_iters = s₁.max_dynamic_iters) := by
  refine ⟨⟨?_, analyzeQuestion_iteration cfg resp s⟩,
    fun r₁ s₁ s₂ h => (enhancedPlan_ok_pres r₁ s₁ s₂ h).2,
    parallelRetrieve_maxdyn, advancedAssess_maxdyn,
    fun cfg₁ r₁ s₁ s₂ h => (intelligentDecide_ok_spec cfg₁ r₁ s₁ s₂ h).2.1,
    enhancedSynthesis_maxdyn, advancedVerify_maxdyn⟩
  rw [analyzeQuestion_budget]
  have henc8 : (mkRat 8 10 : Rat) = 0.8 := by norm_num [Rat.mkRat_eq_div]
  have henc5 : (mkRat 5 10 : Rat) = 0.5 := by norm_num [Rat.mkRat_eq_div]
  rw [ratAdd_eq, ratMul_eq, ratMul_eq, henc8, henc5, specMaxDynTrunc, specClamp]
  congr 1
  omega

/-- Witness for the amended C3 at the scenario of the specification: complexity
9, hops 8, configured maximum 8 give clamp(int(11.2), 2, 8) = 8. -/
theorem budget_formula_amended_witness :
    (analyzeQuestion { default_max_iters := 8, min_iters := 2 }
        (some analysis9and8) (initState "q")).max_dynamic_iters = some 8 := by
  have h := budget_formula_amended { default_max_iters := 8, min_iters := 2 }
    (some analysis9and8) (initState "q") (by decide)
  rw [h.1.1]
  simp only [Option.getD_some]
  have h9 : (analysis9and8.complexity_score.getD 5) = 9 := rfl
  have h8 : (analysis9and8.estimated_hops.getD 4) = 8 := rfl
  rw [h9, h8, specMaxDynTrunc, specClamp]
  have harg : (9 : Rat) * 0.8 + 8 * 0.5 = 56 / 5 := by norm_num
  rw [harg]
  have hfl : pyInt ((56 : Rat) / 5) = 11 := by
    rw [pyInt, if_pos (by norm_num)]
    norm_num
  rw [hfl]
  rfl

/-- C4: deduplication identifies passages by the (source, page) pair and
not by content: the output is a sublist of the input (first-occurrence
order preserved), its keys are pairwise distinct (one passage per key),
and a passage survives exactly when it is the first-occurring entry with
its key - regardless of the content texts of later entries sharing it. -/
theorem dedupe_by_source_page (docs : List Document) :
    (dedupeDocs docs).Sublist docs
    ∧ (dedupeDocs docs).Pairwise keyDistinct
    ∧ ∀ d : Document,
        d ∈ dedupeDocs docs
          ↔ docs.find? (fun x => dedupKey x = dedupKey d) = some d := by
  refine ⟨dedupeAux_sublist [] docs, dedupeDocs_pairwise docs, fun d => ?_⟩
  rw [dedupeDocs, dedupeAux_mem_iff]
  simp

/-- C5: within a run the Evidence Accumulator is monotonically
non-decreasing across iterations: given the run invariant that the
current accumulator has pairwise-distinct keys (established by
analyzeQuestion_evidence and parallelRetrieve_evidence_pairwise), the
updated accumulator of the retrieval node contains every previous passage, the
previous entries form a prefix (order kept), and the length never
decreases. -/
theorem evidence_monotone
    (semantic similarity : String → Except String (List Document))
    (s : EnhancedAgentState)
    (hnd : (s.evidence_docs.getD []).Pairwise keyDistinct) :
    (∀ d ∈ s.evidence_docs.getD [],
        d ∈ (parallelRetrieve semantic similarity s).evidence_docs.getD [])
    ∧ (∃ t, (parallelRetrieve semantic similarity s).evidence_docs.getD []
        = s.evidence_docs.getD [] ++ t)
    ∧ (s.evidence_docs.getD []).length
      ≤ ((parallelRetrieve semantic similarity s).evidence_docs.getD []).length := by
  have hev : (parallelRetrieve semantic similarity s).evidence_docs.getD []
      = mergeEvidence (s.evidence_docs.getD [])
          (fusedBatch semantic similarity s) := by
    rw [parallelRetrieve_evidence, Option.getD_some]
  rw [hev, mergeEvidence_eq_append _ _ hnd]
  exact ⟨fun d hd => List.mem_append_left _ hd, ⟨_, rfl⟩, by simp⟩

/-- Witness for C5: an accumulator holding one passage grows to hold it
and the newly retrieved one. -/
theorem evidence_monotone_witness :
    (stateWithEvidence.evidence_docs.getD []).length
      ≤ ((parallelRetrieve retBC retBC stateWithEvidence).evidence_docs.getD
          []).length :=
  (evidence_monotone retBC retBC stateWithEvidence (by decide)).2.2

/-- C6: merging the same passage list into the Evidence Accumulator twice
in succession yields exactly the same accumulator as merging it once. -/
theorem merge_idempotent (acc batch : List Document) :
    mergeEvidence (mergeEvidence acc batch) batch = mergeEvidence acc batch := by
  have h1 : dedupeAux [] (dedupeAux [] (acc ++ batch)) = dedupeAux [] (acc ++ batch) :=
    dedupeAux_of_nodup [] _ (dedupeAux_pairwise [] _).1 (by simp)
  have h2 : dedupeAux ((dedupeAux [] (acc ++ batch)).map dedupKey ++ []) batch
      = [] := by
    apply dedupeAux_eq_nil_of_seen
    intro d hd
    rw [List.append_nil, dedupeAux_key_mem]
    exact ⟨List.mem_map_of_mem dedupKey (List.mem_append_right acc hd), by simp⟩
  simp only [mergeEvidence, dedupeDocs]
  rw [dedupeAux_append [] (dedupeAux [] (acc ++ batch)) batch, h1, h2,
    List.append_nil]

/-- C7: when the Evidence Accumulator is empty at synthesis, the
Synthesizer writes exactly the fixed no-relevant-evidence answer with
confidence zero and performs no oracle call (the call counter is zero and
the update is independent of the oracle). -/
theorem synthesis_empty_evidence (synthOracle : String → String → String)
    (s : EnhancedAgentState) (h : s.evidence_docs.getD [] = []) :
    enhancedSynthesis synthOracle s
      = ({ s with final_answer := some noEvidenceAnswer,
                  answer_confidence := some 0 }, 0) := by
  simp only [enhancedSynthesis, h]
  rfl

/-- Witness for C7 at the initial state, whose accumulator is absent and
therefore read as empty. -/
theorem synthesis_empty_evidence_witness :
    enhancedSynthesis (fun _ _ => "ignored") (initState "q")
      = ({ initState "q" with final_answer := some noEvidenceAnswer,
                              answer_confidence := some 0 }, 0) :=
  synthesis_empty_evidence (fun _ _ => "ignored") (initState "q") rfl

/-- C8: whenever the loop exits successfully, the run terminates normally
with the output of the verification node as the final state (verification
transitions directly to the terminal state, never back into the loop),
and whenever the verdict of the Verifier is fail - including its
short-circuits on empty answer or empty evidence - the verification step
changes only the grounded_ok key, to false, leaving the final answer and
every other post-synthesis field unchanged. -/
theorem verify_fail_frame (cfg : Config) (O : Oracle) (q : String)
    (sL : EnhancedAgentState)
    (hL : runLoopF cfg O
        (loopFuel cfg (analyzeQuestion cfg O.analysis (initState q)))
        (analyzeQuestion cfg O.analysis (initState q)) = Except.ok sL) :
    runGraph cfg O q
      = Except.ok (advancedVerify O.verify (enhancedSynthesis O.synth sL).1)
    ∧ ((advancedVerify O.verify (enhancedSynthesis O.synth sL).1).grounded_ok
          = some false →
        advancedVerify O.verify (enhancedSynthesis O.synth sL).1
          = { (enhancedSynthesis O.synth sL).1 with grounded_ok := some false }) := by
  constructor
  · simp only [runGraph]
    rw [hL]
  · intro hg
    rw [advancedVerify_frame O.verify (enhancedSynthesis O.synth sL).1, hg]

/-- Witness for C8: the fixture run retrieves one passage, synthesises a
nonempty answer, the parsed verification verdict is fail, and the final
state is the post-synthesis state with only grounded_ok set to false. -/
theorem verify_fail_frame_witness :
    advancedVerify oracleVerifyFail.verify
        (enhancedSynthesis oracleVerifyFail.synth c8LoopState).1
      = { (enhancedSynthesis oracleVerifyFail.synth c8LoopState).1 with
          grounded_ok := some false } :=
  (verify_fail_frame cfgApp oracleVerifyFail "q" c8LoopState (by decide)).2
    (by decide)

/-- C9: an empty (or whitespace-only) question is rejected before the
pipeline is entered - rag_pipeline.ask is never invoked - but the caller
receives HTTP 500, not the intended 422: the blanket
except clause of the endpoint catches the 422 HTTPException it just raised and re-raises
it as an internal error. -/
theorem empty_question_rejected_before_pipeline :
    policy_qa askStub "" none
      = (Except.error
          { status_code := 500,
            detail := "Error processing question: 422: Question cannot be empty" },
         false)
    ∧ policy_qa askStub "   " none
      = (Except.error
          { status_code := 500,
            detail := "Error processing question: 422: Question cannot be empty" },
         false) :=
  ⟨rfl, rfl⟩

/-- C10: the max_iters argument of ask and stream has no effect: it is
bound to a local that is never used, so for any question, thread id and
oracle behaviour both operations return identical results for any two
values of the argument (including omitting it). -/
theorem max_iters_argument_dead (cfg : Config) (O : Oracle) (q : String)
    (tid : Option String) (m₁ m₂ : Option Nat) :
    ask cfg O q m₁ tid = ask cfg O q m₂ tid
    ∧ streamRun cfg O q m₁ tid = streamRun cfg O q m₂ tid :=
  ⟨rfl, rfl⟩
